import Mathlib

/-!
Verification of the terrain LOD quadtree (`QuadTree.h` / `QuadTree.cpp`).

The C++ code is shallowly embedded: `float` arithmetic is modelled exactly
over `ℚ`; the only non-rational operation, `sqrtf`, occurs solely inside
strict comparisons `sqrtf e < t`, which are embedded as the exact
equivalent `0 < t ∧ e < t * t` (`sqrtLt` below, justified against
`Real.sqrt` in lemma `sqrtLt_iff_real`).  The mutable per-frame counters
`mVisibleNodeCount` / `mNextObjectCBIndex` are threaded explicitly as a
`ℕ × ℕ` state.  `TerrainNode*` ownership becomes an inductive tree whose
child list is `[NW, NE, SW, SE]` (empty for leaves, mirroring the four
null pointers).
-/

/-- `DirectX::XMFLOAT3` with exact rational coordinates. -/
structure Float3 where
  x : ℚ
  y : ℚ
  z : ℚ

/-- `DirectX::XMFLOAT4`, used for frustum planes `(a, b, c, d)`. -/
structure Float4 where
  x : ℚ
  y : ℚ
  z : ℚ
  w : ℚ

/-- `BoundingBoxAABB`: center + half-extents. -/
structure AABB where
  center : Float3
  extents : Float3

/-- The "positive vertex" of the box for a plane: per axis, `center ± extent`
chosen by the sign of the plane normal component
(`QuadTree.cpp`, `BoundingBoxAABB::Intersects`, lines 17-20). -/
def positiveVertex (bb : AABB) (p : Float4) : Float3 :=
  ⟨if 0 ≤ p.x then bb.center.x + bb.extents.x else bb.center.x - bb.extents.x,
   if 0 ≤ p.y then bb.center.y + bb.extents.y else bb.center.y - bb.extents.y,
   if 0 ≤ p.z then bb.center.z + bb.extents.z else bb.center.z - bb.extents.z⟩

/-- One iteration of the plane loop in `BoundingBoxAABB::Intersects`:
the box survives the plane unless the positive vertex is strictly behind it. -/
def planePass (bb : AABB) (p : Float4) : Bool :=
  let v := positiveVertex bb p
  let distance := p.x * v.x + p.y * v.y + p.z * v.z + p.w
  !(decide (distance < 0))

/-- The six frustum planes (`const XMFLOAT4* frustumPlanes`, read at indices 0-5). -/
def Frustum : Type := Fin 6 → Float4

/-- `BoundingBoxAABB::Intersects`: true iff the box survives all six planes. -/
def AABB.intersects (bb : AABB) (fr : Frustum) : Bool :=
  (List.finRange 6).all (fun i => planePass bb (fr i))

/-- The scalar fields of `TerrainNode` (everything except the child pointers). -/
structure NodeData where
  x : ℚ
  z : ℚ
  size : ℚ
  lodLevel : ℤ
  maxLOD : ℤ
  minY : ℚ
  maxY : ℚ
  bounds : AABB
  isLeaf : Bool
  isVisible : Bool
  objectCBIndex : ℕ

/-- `TerrainNode`: data plus the list of owned children
(`std::unique_ptr<TerrainNode> Children[4]`; the list is `[NW, NE, SW, SE]`
when the node was subdivided and `[]` when all four pointers are null). -/
inductive TerrainNode : Type where
  | mk : NodeData → List TerrainNode → TerrainNode

instance : Inhabited TerrainNode :=
  ⟨.mk ⟨0, 0, 0, 0, 0, 0, 0, ⟨⟨0, 0, 0⟩, ⟨0, 0, 0⟩⟩, true, false, 0⟩ []⟩

def TerrainNode.data : TerrainNode → NodeData
  | .mk d _ => d

def TerrainNode.children : TerrainNode → List TerrainNode
  | .mk _ cs => cs

/-- The `QuadTree` object state. -/
structure QuadTree where
  terrainSize : ℚ
  minNodeSize : ℚ
  maxLODLevels : ℤ
  lodDistances : List ℚ
  root : Option TerrainNode
  visibleNodeCount : ℕ
  totalNodeCount : ℕ
  nextObjectCBIndex : ℕ

/-- The default constructor `QuadTree::QuadTree()`: everything zeroed,
no root, no LOD distance table. -/
def QuadTree.new : QuadTree :=
  ⟨0, 0, 0, [], none, 0, 0, 0⟩

/-- Exact embedding of `sqrtf e < t` for `e ≥ 0`: the strict comparison of a
real square root against a threshold, expressed rationally
(see `sqrtLt_iff_real`). -/
def sqrtLt (e t : ℚ) : Bool :=
  decide (0 < t) && decide (e < t * t)

mutual
/-- Number of nodes in a subtree: `mTotalNodeCount` is incremented once per
`BuildTree` call, i.e. once per node. -/
def nodeCount : TerrainNode → ℕ
  | .mk _ cs => 1 + nodeCountList cs
def nodeCountList : List TerrainNode → ℕ
  | [] => 0
  | c :: rest => nodeCount c + nodeCountList rest
end

/-- `QuadTree::BuildTree` (lines 62-100): stamps position/size/depth, the
default height range `[0, 100]`, the bounding box, and subdivides into
NW, NE, SW, SE quadrants iff `size > minNodeSize && depth < maxLODLevels - 1`. -/
def buildTree (minNodeSize : ℚ) (maxLODLevels : ℤ) (x z size : ℚ) (depth : ℤ) :
    TerrainNode :=
  let minY : ℚ := 0
  let maxY : ℚ := 100
  let bounds : AABB :=
    ⟨⟨x, (minY + maxY) * (1/2), z⟩,
     ⟨size * (1/2), (maxY - minY) * (1/2) + 10, size * (1/2)⟩⟩
  if h : size > minNodeSize ∧ depth < maxLODLevels - 1 then
    let halfSize := size * (1/2)
    let quarterSize := size * (1/4)
    TerrainNode.mk
      ⟨x, z, size, depth, maxLODLevels - 1, minY, maxY, bounds, false, false, 0⟩
      [buildTree minNodeSize maxLODLevels (x - quarterSize) (z + quarterSize) halfSize (depth + 1),
       buildTree minNodeSize maxLODLevels (x + quarterSize) (z + quarterSize) halfSize (depth + 1),
       buildTree minNodeSize maxLODLevels (x - quarterSize) (z - quarterSize) halfSize (depth + 1),
       buildTree minNodeSize maxLODLevels (x + quarterSize) (z - quarterSize) halfSize (depth + 1)]
  else
    TerrainNode.mk
      ⟨x, z, size, depth, maxLODLevels - 1, minY, maxY, bounds, true, false, 0⟩ []
termination_by (maxLODLevels - 1 - depth).toNat
decreasing_by all_goals omega

/-- The default LOD threshold table built in `QuadTree::Initialize`
(lines 48-55): `mLODDistances[i] = minNodeSize * (1 << (maxLODLevels-i-1)) * 2`. -/
def defaultLODDistances (minNodeSize : ℚ) (maxLODLevels : ℤ) : List ℚ :=
  (List.range maxLODLevels.toNat).map
    (fun i => minNodeSize * ((2 : ℚ) ^ (maxLODLevels - i - 1).toNat) * 2)

/-- `QuadTree::Initialize` (lines 40-60): store the configuration, derive the
default LOD distances when none were supplied, and rebuild the tree from the
origin; `mTotalNodeCount` ends up equal to the number of `BuildTree` calls. -/
def QuadTree.initializeQT (qt : QuadTree) (terrainSize minNodeSize : ℚ)
    (maxLODLevels : ℤ) : QuadTree :=
  let lodDistances :=
    if qt.lodDistances.isEmpty then defaultLODDistances minNodeSize maxLODLevels
    else qt.lodDistances
  let root := buildTree minNodeSize maxLODLevels 0 0 terrainSize 0
  { qt with
    terrainSize := terrainSize
    minNodeSize := minNodeSize
    maxLODLevels := maxLODLevels
    lodDistances := lodDistances
    root := some root
    totalNodeCount := nodeCount root }

/-- The scan loop of `QuadTree::CalculateLOD` (lines 155-160): first index
whose threshold strictly exceeds the distance, else `maxLODLevels - 1`. -/
def lodScan : List ℚ → ℤ → ℚ → ℤ → ℤ
  | [], _, _, maxL => maxL - 1
  | t :: rest, i, e, maxL => if sqrtLt e t then i else lodScan rest (i + 1) e maxL

/-- `QuadTree::CalculateLOD` (lines 146-161): full 3D camera distance to the
node's vertical bounding midpoint, banded by `mLODDistances`. -/
def calculateLOD (lodDistances : List ℚ) (maxLODLevels : ℤ) (d : NodeData)
    (cameraPos : Float3) : ℤ :=
  let dx := cameraPos.x - d.x
  let dy := cameraPos.y - (d.minY + d.maxY) * (1/2)
  let dz := cameraPos.z - d.z
  lodScan lodDistances 0 (dx * dx + dy * dy + dz * dz) maxLODLevels

/-- `QuadTree::ShouldSubdivide` (lines 163-176): never for leaves; otherwise
horizontal X/Z camera distance strictly below `Size * 1.5`. -/
def shouldSubdivide (d : NodeData) (cameraPos : Float3) : Bool :=
  if d.isLeaf then false
  else
    let dx := cameraPos.x - d.x
    let dz := cameraPos.z - d.z
    sqrtLt (dx * dx + dz * dz) (d.size * (3/2))

mutual
/-- `QuadTree::UpdateNode` (lines 113-144) with the two counters
`(mVisibleNodeCount, mNextObjectCBIndex)` threaded as explicit state:
frustum-cull, stamp the desired LOD, then either delegate to the children
(clearing the node's own visibility) or activate the node and assign the
next render slot. `updateList` is the `for i in 0..3` child loop. -/
def updateNode (lodDistances : List ℚ) (maxLODLevels : ℤ) (cameraPos : Float3)
    (fr : Frustum) : TerrainNode → ℕ × ℕ → TerrainNode × (ℕ × ℕ)
  | .mk d cs, st =>
    if d.bounds.intersects fr then
      let desiredLOD := calculateLOD lodDistances maxLODLevels d cameraPos
      let d' := { d with isVisible := true, lodLevel := desiredLOD }
      if !d'.isLeaf && shouldSubdivide d' cameraPos then
        let r := updateList lodDistances maxLODLevels cameraPos fr cs st
        (.mk { d' with isVisible := false } r.1, r.2)
      else
        (.mk { d' with objectCBIndex := st.2 } cs, (st.1 + 1, st.2 + 1))
    else
      (.mk { d with isVisible := false } cs, st)
def updateList (lodDistances : List ℚ) (maxLODLevels : ℤ) (cameraPos : Float3)
    (fr : Frustum) : List TerrainNode → ℕ × ℕ → List TerrainNode × (ℕ × ℕ)
  | [], st => ([], st)
  | c :: rest, st =>
    let r1 := updateNode lodDistances maxLODLevels cameraPos fr c st
    let r2 := updateList lodDistances maxLODLevels cameraPos fr rest r1.2
    (r1.1 :: r2.1, r2.2)
end

/-- `QuadTree::Update` (lines 102-111): reset both counters, then walk the
tree if a root exists. -/
def QuadTree.update (qt : QuadTree) (cameraPos : Float3) (fr : Frustum) :
    QuadTree :=
  match qt.root with
  | none => { qt with visibleNodeCount := 0, nextObjectCBIndex := 0 }
  | some r =>
    let res := updateNode qt.lodDistances qt.maxLODLevels cameraPos fr r (0, 0)
    { qt with
      root := some res.1
      visibleNodeCount := res.2.1
      nextObjectCBIndex := res.2.2 }

mutual
/-- `QuadTree::CollectVisibleNodes` (lines 189-206): push a visible node and
stop; otherwise recurse into the children of a non-leaf. -/
def collectVisibleNodes : TerrainNode → List TerrainNode
  | .mk d cs =>
    if d.isVisible then [.mk d cs]
    else if !d.isLeaf then collectList cs
    else []
def collectList : List TerrainNode → List TerrainNode
  | [] => []
  | c :: rest => collectVisibleNodes c ++ collectList rest
end

/-- `QuadTree::GetVisibleNodes` (lines 178-187): clear the output vector,
then collect from the root if present. -/
def QuadTree.getVisibleNodes (qt : QuadTree) : List TerrainNode :=
  match qt.root with
  | none => []
  | some r => collectVisibleNodes r

/-- `QuadTree::SetHeightRange` (lines 208-219): the region arguments are
ignored; only the root's height range and vertical box slab are rewritten. -/
def QuadTree.setHeightRange (qt : QuadTree) (x z size minY maxY : ℚ) :
    QuadTree :=
  match qt.root with
  | none => qt
  | some (.mk d cs) =>
    { qt with
      root := some (.mk
        { d with
          minY := minY
          maxY := maxY
          bounds :=
            { d.bounds with
              center := { d.bounds.center with y := (minY + maxY) * (1/2) }
              extents := { d.bounds.extents with y := (maxY - minY) * (1/2) + 10 } } }
        cs) }

/-!
## Computational bridge

`buildTree` recurses along the integer measure `maxLODLevels - 1 - depth`,
which Lean compiles by well-founded recursion; such definitions do not
reduce definitionally, so concrete trees could not be evaluated by `decide`.
`buildTreeN` is the same construction driven by a structural fuel argument
kept equal to `(maxLODLevels - 1 - depth).toNat`; `buildTreeN_eq` proves the
two agree whenever the fuel satisfies that invariant, and
`initializeQT_eval` re-expresses `Initialize` through the evaluable form.
-/

/-- The leaf case of `BuildTree`: stamped fields, default height range,
bounding box, `IsLeaf = true`, no children. -/
def leafNode (maxLODLevels : ℤ) (x z size : ℚ) (depth : ℤ) : TerrainNode :=
  TerrainNode.mk
    ⟨x, z, size, depth, maxLODLevels - 1, 0, 100,
     ⟨⟨x, (0 + 100) * (1/2), z⟩,
      ⟨size * (1/2), (100 - 0) * (1/2) + 10, size * (1/2)⟩⟩,
     true, false, 0⟩ []

/-- Fuel-driven twin of `buildTree` (structurally recursive, hence
evaluable); agrees with `buildTree` by `buildTreeN_eq`. -/
def buildTreeN (minNodeSize : ℚ) (maxLODLevels : ℤ) :
    ℕ → ℚ → ℚ → ℚ → ℤ → TerrainNode
  | fuel + 1, x, z, size, depth =>
    if size > minNodeSize ∧ depth < maxLODLevels - 1 then
      TerrainNode.mk
        ⟨x, z, size, depth, maxLODLevels - 1, 0, 100,
         ⟨⟨x, (0 + 100) * (1/2), z⟩,
          ⟨size * (1/2), (100 - 0) * (1/2) + 10, size * (1/2)⟩⟩,
         false, false, 0⟩
        [buildTreeN minNodeSize maxLODLevels fuel (x - size * (1/4)) (z + size * (1/4)) (size * (1/2)) (depth + 1),
         buildTreeN minNodeSize maxLODLevels fuel (x + size * (1/4)) (z + size * (1/4)) (size * (1/2)) (depth + 1),
         buildTreeN minNodeSize maxLODLevels fuel (x - size * (1/4)) (z - size * (1/4)) (size * (1/2)) (depth + 1),
         buildTreeN minNodeSize maxLODLevels fuel (x + size * (1/4)) (z - size * (1/4)) (size * (1/2)) (depth + 1)]
    else leafNode maxLODLevels x z size depth
  | 0, x, z, size, depth => leafNode maxLODLevels x z size depth

/-- The fuel-driven tree equals `buildTree` whenever the fuel matches the
remaining-depth measure. -/
theorem buildTreeN_eq (minNodeSize : ℚ) (maxLODLevels : ℤ) :
    ∀ (fuel : ℕ) (x z size : ℚ) (depth : ℤ),
      fuel = (maxLODLevels - 1 - depth).toNat →
      buildTreeN minNodeSize maxLODLevels fuel x z size depth =
        buildTree minNodeSize maxLODLevels x z size depth := by
  intro fuel
  induction fuel with
  | zero =>
    intro x z size depth hf
    rw [buildTree, buildTreeN]
    dsimp only [leafNode]
    rw [dif_neg]
    omega
  | succ n ih =>
    intro x z size depth hf
    rw [buildTree, buildTreeN]
    dsimp only [leafNode]
    by_cases h : size > minNodeSize ∧ depth < maxLODLevels - 1
    · rw [if_pos h, dif_pos h]
      rw [ih _ _ _ _ (by omega), ih _ _ _ _ (by omega), ih _ _ _ _ (by omega),
        ih _ _ _ _ (by omega)]
    · rw [if_neg h, dif_neg h]

/-- `Initialize` expressed through the evaluable tree builder. -/
theorem initializeQT_eval (qt : QuadTree) (ts ms : ℚ) (ml : ℤ) :
    qt.initializeQT ts ms ml =
      { qt with
        terrainSize := ts
        minNodeSize := ms
        maxLODLevels := ml
        lodDistances :=
          if qt.lodDistances.isEmpty then defaultLODDistances ms ml
          else qt.lodDistances
        root := some (buildTreeN ms ml (ml - 1).toNat 0 0 ts 0)
        totalNodeCount := nodeCount (buildTreeN ms ml (ml - 1).toNat 0 0 ts 0) } := by
  rw [QuadTree.initializeQT]
  rw [buildTreeN_eq ms ml _ 0 0 ts 0 (by omega)]

/-- A frustum that accepts every box: each plane evaluates to the constant
`+1`, so every positive-vertex test passes. -/
def acceptAll : Frustum := fun _ => ⟨0, 0, 0, 1⟩

/-- A frustum that rejects every box: each plane evaluates to the constant
`-1`, so every box is entirely on the negative side of every plane. -/
def rejectAll : Frustum := fun _ => ⟨0, 0, 0, -1⟩

/-- A complete quadtree of the given depth: leaves at depth `0`, otherwise
exactly four children, each complete of one smaller depth. -/
def completeDepth : ℕ → TerrainNode → Bool
  | 0, .mk _ cs => cs.isEmpty
  | n + 1, .mk _ cs =>
    match cs with
    | [c0, c1, c2, c3] =>
      completeDepth n c0 && completeDepth n c1 && completeDepth n c2 && completeDepth n c3
    | _ => false

/-!
## Basic frustum facts for the concrete scenarios
-/

/-- `acceptAll` accepts every box. -/
theorem acceptAll_accepts (bb : AABB) : bb.intersects acceptAll = true := by
  simp [AABB.intersects, planePass, positiveVertex, acceptAll, List.finRange]

/-- `rejectAll` rejects every box. -/
theorem rejectAll_rejects (bb : AABB) : bb.intersects rejectAll = false := by
  simp [AABB.intersects, planePass, positiveVertex, rejectAll, List.finRange]

/-!
## C2: node count and shape after Initialize(512, 64, 5)
-/

set_option maxRecDepth 400000 in
/-- C2 (counterexample): after `Initialize(512, 64, 5)` the claimed total
node count 341 and the claimed complete depth 4 are both wrong: the count
is 85 and the tree is not complete at depth 4. -/
theorem init_512_64_5_not_341 :
    (QuadTree.new.initializeQT 512 64 5).totalNodeCount ≠ 341 ∧
    (QuadTree.new.initializeQT 512 64 5).root.map (completeDepth 4) = some false := by
  rw [initializeQT_eval]
  with_unfolding_all decide

set_option maxRecDepth 400000 in
/-- C2 (amended): after `Initialize(512, 64, 5)` the tree is a complete
quadtree of depth 3 and `GetTotalNodeCount()` returns 85 = 1 + 4 + 16 + 64:
depth-3 nodes have size exactly 64, and the subdivision condition
`size > minNodeSize` is strict, so they become leaves. -/
theorem init_512_64_5_depth3_count85 :
    (QuadTree.new.initializeQT 512 64 5).totalNodeCount = 85 ∧
    (QuadTree.new.initializeQT 512 64 5).root.map (completeDepth 3) = some true := by
  rw [initializeQT_eval]
  with_unfolding_all decide

/-!
## C3: camera directly above the terrain center
-/

set_option maxRecDepth 400000 in
/-- C3 (counterexample): with the camera at `(0, 1000, 0)` and an
all-accepting frustum, the active-node count after `Update` is not 1. -/
theorem camera_above_center_not_one :
    ((QuadTree.new.initializeQT 512 64 5).update ⟨0, 1000, 0⟩ acceptAll).visibleNodeCount ≠ 1 := by
  rw [initializeQT_eval]
  with_unfolding_all decide

set_option maxRecDepth 400000 in
/-- C3 (amended): with the camera at `(0, 1000, 0)` and an all-accepting
frustum, `Update` yields 28 active nodes and the root is subdivided (not
active), because `ShouldSubdivide` uses the horizontal X/Z distance only,
which is 0 < 512 * 1.5; the camera height 1000 plays no role. -/
theorem camera_above_center_28_active :
    ((QuadTree.new.initializeQT 512 64 5).update ⟨0, 1000, 0⟩ acceptAll).visibleNodeCount = 28 ∧
    ((QuadTree.new.initializeQT 512 64 5).update ⟨0, 1000, 0⟩ acceptAll).root.map
      (fun t => t.data.isVisible) = some false := by
  rw [initializeQT_eval]
  with_unfolding_all decide

/-!
## C7: degenerate configurations
-/

set_option maxRecDepth 40000 in
/-- C7 (counterexample): `Initialize(0, -1, 2)` has non-positive terrain
size and non-positive minimum node size, yet builds five nodes, because
the subdivision condition `0 > -1 && 0 < 1` holds at the root. -/
theorem degenerate_nonpos_cex :
    (0 : ℚ) ≤ 0 ∧ (-1 : ℚ) ≤ 0 ∧
    (QuadTree.new.initializeQT 0 (-1) 2).totalNodeCount = 5 := by
  refine ⟨le_refl 0, by norm_num, ?_⟩
  rw [initializeQT_eval]
  with_unfolding_all decide

/-- C7 (amended): whenever `terrainSize ≤ minNodeSize` (which covers every
non-positive terrain size paired with a non-negative minimum node size),
`Initialize` produces a single-node tree: the root is a leaf and
`GetTotalNodeCount()` returns 1. -/
theorem degenerate_single_node (ts ms : ℚ) (ml : ℤ) (h : ts ≤ ms) :
    (QuadTree.new.initializeQT ts ms ml).totalNodeCount = 1 ∧
    (QuadTree.new.initializeQT ts ms ml).root = some (leafNode ml 0 0 ts 0) := by
  have hroot : buildTree ms ml 0 0 ts 0 = leafNode ml 0 0 ts 0 := by
    rw [buildTree]
    dsimp only [leafNode]
    rw [dif_neg]
    exact fun hc => absurd hc.1 (not_lt.mpr h)
  simp only [QuadTree.initializeQT]
  rw [hroot]
  exact ⟨by simp [nodeCount, nodeCountList, leafNode], rfl⟩

/-- Witness for `degenerate_single_node` at `terrainSize = 0`,
`minNodeSize = 0`, `maxLODLevels = 5`. -/
theorem degenerate_single_node_witness :
    (QuadTree.new.initializeQT 0 0 5).totalNodeCount = 1 ∧
    (QuadTree.new.initializeQT 0 0 5).root = some (leafNode 5 0 0 0 0) :=
  degenerate_single_node 0 0 5 (le_refl 0)

/-!
## C10: calls before Initialize
-/

/-- C10 (confirmed): on a freshly constructed `QuadTree` (no `Initialize`),
`Update` is a no-op that leaves the zero-initialized state (in particular
`GetVisibleNodeCount() = 0`), and `GetVisibleNodes` returns the empty
sequence; both are guarded by the null-root check. -/
theorem update_before_init_noop (cameraPos : Float3) (fr : Frustum) :
    QuadTree.new.update cameraPos fr = QuadTree.new ∧
    QuadTree.new.getVisibleNodes = [] ∧
    QuadTree.new.visibleNodeCount = 0 :=
  ⟨rfl, rfl, rfl⟩

/-!
## C8: SetHeightRange frame effect
-/

/-- C8 (confirmed): `SetHeightRange` rewrites only the root's height range
and vertical bounding slab; the children list, every other root field, and
every other `QuadTree` field are untouched, and the `x`, `z`, `size`
arguments have no effect on the result. -/
theorem setHeightRange_root_only (qt : QuadTree) (x z size x' z' size' minY maxY : ℚ)
    (d : NodeData) (cs : List TerrainNode) (h : qt.root = some (.mk d cs)) :
    qt.setHeightRange x z size minY maxY =
      { qt with root := some (.mk
          { d with
            minY := minY
            maxY := maxY
            bounds :=
              { d.bounds with
                center := { d.bounds.center with y := (minY + maxY) * (1/2) }
                extents := { d.bounds.extents with y := (maxY - minY) * (1/2) + 10 } } }
          cs) } ∧
    qt.setHeightRange x z size minY maxY = qt.setHeightRange x' z' size' minY maxY := by
  cases qt
  dsimp only at h
  subst h
  exact ⟨rfl, rfl⟩

/-- Concrete root data for the `setHeightRange_root_only` witness. -/
def exD8 : NodeData :=
  ⟨1, 2, 4, 0, 1, 0, 100, ⟨⟨1, 50, 2⟩, ⟨2, 60, 2⟩⟩, true, false, 0⟩

/-- Concrete quadtree for the `setHeightRange_root_only` witness. -/
def exQt8 : QuadTree :=
  { QuadTree.new with root := some (.mk exD8 []) }

/-- Witness for `setHeightRange_root_only` at a concrete tree, with two
different ignored-region arguments. -/
theorem setHeightRange_root_only_witness :
    exQt8.setHeightRange 9 9 9 (-5) 7 =
      { exQt8 with root := some (.mk
          { exD8 with
            minY := -5
            maxY := 7
            bounds :=
              { exD8.bounds with
                center := { exD8.bounds.center with y := ((-5) + 7) * (1/2) }
                extents := { exD8.bounds.extents with y := (7 - (-5)) * (1/2) + 10 } } }
          []) } ∧
    exQt8.setHeightRange 9 9 9 (-5) 7 = exQt8.setHeightRange 3 4 5 (-5) 7 :=
  setHeightRange_root_only exQt8 9 9 9 3 4 5 (-5) 7 exD8 [] rfl

/-!
## C5: the strict 1.5x subdivision threshold
-/

/-- For a non-negative radicand, `sqrtLt e t` decides exactly the real
inequality `sqrt e < t` that `ShouldSubdivide` computes with `sqrtf`. -/
theorem sqrtLt_iff_real (e t : ℚ) (he : 0 ≤ e) :
    sqrtLt e t = true ↔ Real.sqrt (e : ℝ) < (t : ℝ) := by
  unfold sqrtLt
  rw [Bool.and_eq_true, decide_eq_true_iff, decide_eq_true_iff]
  constructor
  · rintro ⟨ht, hlt⟩
    have ht' : (0 : ℝ) < (t : ℝ) := by exact_mod_cast ht
    rw [Real.sqrt_lt' ht']
    have : ((e : ℚ) : ℝ) < ((t * t : ℚ) : ℝ) := by exact_mod_cast hlt
    push_cast at this
    nlinarith [this]
  · intro hlt
    have hs : (0 : ℝ) ≤ Real.sqrt (e : ℝ) := Real.sqrt_nonneg _
    have ht' : (0 : ℝ) < (t : ℝ) := lt_of_le_of_lt hs hlt
    rw [Real.sqrt_lt' ht'] at hlt
    refine ⟨by exact_mod_cast ht', ?_⟩
    have : ((e : ℚ) : ℝ) < ((t : ℚ) : ℝ) * ((t : ℚ) : ℝ) := by nlinarith [hlt]
    exact_mod_cast this

/-- C5 (confirmed): during `Update`, a non-leaf node that passes the frustum
test is subdivided — marked not active, with its children recursed into —
if and only if the horizontal X/Z Euclidean distance from the camera to the
node center is strictly less than 1.5 times the node size; otherwise
(including at distance exactly `1.5 * size`) the node is activated as-is
and receives the next render slot. -/
theorem subdivision_threshold_strict (lodDistances : List ℚ) (maxLODLevels : ℤ)
    (cameraPos : Float3) (fr : Frustum) (d : NodeData) (cs : List TerrainNode)
    (st : ℕ × ℕ) (hleaf : d.isLeaf = false)
    (hfr : d.bounds.intersects fr = true) :
    (Real.sqrt (((cameraPos.x - d.x : ℚ) : ℝ) ^ 2 + ((cameraPos.z - d.z : ℚ) : ℝ) ^ 2)
        < 1.5 * (d.size : ℝ) →
      (updateNode lodDistances maxLODLevels cameraPos fr (.mk d cs) st).1.data.isVisible
          = false ∧
      (updateNode lodDistances maxLODLevels cameraPos fr (.mk d cs) st).1.children
          = (updateList lodDistances maxLODLevels cameraPos fr cs st).1 ∧
      (updateNode lodDistances maxLODLevels cameraPos fr (.mk d cs) st).2
          = (updateList lodDistances maxLODLevels cameraPos fr cs st).2) ∧
    (¬ Real.sqrt (((cameraPos.x - d.x : ℚ) : ℝ) ^ 2 + ((cameraPos.z - d.z : ℚ) : ℝ) ^ 2)
        < 1.5 * (d.size : ℝ) →
      (updateNode lodDistances maxLODLevels cameraPos fr (.mk d cs) st).1.data.isVisible
          = true ∧
      (updateNode lodDistances maxLODLevels cameraPos fr (.mk d cs) st).1.data.objectCBIndex
          = st.2 ∧
      (updateNode lodDistances maxLODLevels cameraPos fr (.mk d cs) st).1.children = cs ∧
      (updateNode lodDistances maxLODLevels cameraPos fr (.mk d cs) st).2
          = (st.1 + 1, st.2 + 1)) := by
  have he : (0 : ℚ) ≤ (cameraPos.x - d.x) * (cameraPos.x - d.x)
      + (cameraPos.z - d.z) * (cameraPos.z - d.z) :=
    add_nonneg (mul_self_nonneg _) (mul_self_nonneg _)
  have hcast : (((cameraPos.x - d.x) * (cameraPos.x - d.x)
        + (cameraPos.z - d.z) * (cameraPos.z - d.z) : ℚ) : ℝ)
      = ((cameraPos.x - d.x : ℚ) : ℝ) ^ 2 + ((cameraPos.z - d.z : ℚ) : ℝ) ^ 2 := by
    push_cast
    ring
  have hthr : ((d.size * (3 / 2) : ℚ) : ℝ) = 1.5 * (d.size : ℝ) := by
    push_cast
    ring
  have key : ∀ lod : ℤ,
      shouldSubdivide { d with isVisible := true, lodLevel := lod, isLeaf := false }
          cameraPos = true ↔
        Real.sqrt (((cameraPos.x - d.x : ℚ) : ℝ) ^ 2 + ((cameraPos.z - d.z : ℚ) : ℝ) ^ 2)
          < 1.5 * (d.size : ℝ) := by
    intro lod
    unfold shouldSubdivide
    dsimp only
    rw [if_neg (by simp)]
    rw [sqrtLt_iff_real _ _ he, hcast, hthr]
  rw [updateNode]
  rw [hfr]
  constructor
  · intro hlt
    simp only [if_true]
    rw [if_pos]
    · exact ⟨rfl, rfl, rfl⟩
    · simp only [hleaf, Bool.not_false, Bool.true_and]
      exact (key _).mpr hlt
  · intro hge
    simp only [if_true]
    rw [if_neg]
    · exact ⟨rfl, rfl, rfl, rfl⟩
    · simp only [hleaf, Bool.not_false, Bool.true_and]
      intro hc
      exact hge ((key _).mp hc)

/-- Camera for the `subdivision_threshold_strict` witness: horizontal
distance to the node center is exactly 6 = 1.5 * 4 (the boundary case). -/
def exCam5 : Float3 := ⟨6, 0, 0⟩

/-- Non-leaf node of size 4 at the origin for the
`subdivision_threshold_strict` witness. -/
def exD5 : NodeData :=
  ⟨0, 0, 4, 0, 0, 0, 100, ⟨⟨0, 50, 0⟩, ⟨2, 60, 2⟩⟩, false, false, 0⟩

/-- Witness for `subdivision_threshold_strict`: a non-leaf size-4 node seen
from horizontal distance exactly 6. -/
theorem subdivision_threshold_strict_witness :
    (Real.sqrt (((exCam5.x - exD5.x : ℚ) : ℝ) ^ 2 + ((exCam5.z - exD5.z : ℚ) : ℝ) ^ 2)
        < 1.5 * (exD5.size : ℝ) →
      (updateNode [] 1 exCam5 acceptAll (.mk exD5 []) (0, 0)).1.data.isVisible = false ∧
      (updateNode [] 1 exCam5 acceptAll (.mk exD5 []) (0, 0)).1.children
          = (updateList [] 1 exCam5 acceptAll [] (0, 0)).1 ∧
      (updateNode [] 1 exCam5 acceptAll (.mk exD5 []) (0, 0)).2
          = (updateList [] 1 exCam5 acceptAll [] (0, 0)).2) ∧
    (¬ Real.sqrt (((exCam5.x - exD5.x : ℚ) : ℝ) ^ 2 + ((exCam5.z - exD5.z : ℚ) : ℝ) ^ 2)
        < 1.5 * (exD5.size : ℝ) →
      (updateNode [] 1 exCam5 acceptAll (.mk exD5 []) (0, 0)).1.data.isVisible = true ∧
      (updateNode [] 1 exCam5 acceptAll (.mk exD5 []) (0, 0)).1.data.objectCBIndex = 0 ∧
      (updateNode [] 1 exCam5 acceptAll (.mk exD5 []) (0, 0)).1.children = [] ∧
      (updateNode [] 1 exCam5 acceptAll (.mk exD5 []) (0, 0)).2 = (1, 1)) :=
  subdivision_threshold_strict [] 1 exCam5 acceptAll exD5 [] (0, 0) rfl
    (acceptAll_accepts exD5.bounds)

/-!
## Per-frame selection machinery: freshly built trees have all visibility
flags cleared, and an update on such a tree assigns contiguous render slots
-/

mutual
/-- Every visibility flag in the subtree is `false` (the state of every
node right after `BuildTree`, whose constructor sets `IsVisible(false)`). -/
def allInvisible : TerrainNode → Bool
  | .mk d cs => !d.isVisible && allInvisibleList cs
def allInvisibleList : List TerrainNode → Bool
  | [] => true
  | c :: rest => allInvisible c && allInvisibleList rest
end

mutual
theorem collect_of_allInvisible :
    ∀ t : TerrainNode, allInvisible t = true → collectVisibleNodes t = []
  | .mk d cs, h => by
    rw [allInvisible, Bool.and_eq_true, Bool.not_eq_true'] at h
    rw [collectVisibleNodes, h.1]
    simp only [Bool.false_eq_true, if_false]
    split
    · exact collectList_of_allInvisible cs h.2
    · rfl
theorem collectList_of_allInvisible :
    ∀ cs : List TerrainNode, allInvisibleList cs = true → collectList cs = []
  | [], _ => rfl
  | c :: rest, h => by
    rw [allInvisibleList, Bool.and_eq_true] at h
    rw [collectList, collect_of_allInvisible c h.1, collectList_of_allInvisible rest h.2]
    rfl
end

/-- `BuildTree` leaves every node invisible. -/
theorem buildTree_allInvisible (ms : ℚ) (ml : ℤ) (x z size : ℚ) (depth : ℤ) :
    allInvisible (buildTree ms ml x z size depth) = true := by
  rw [buildTree]
  by_cases h : size > ms ∧ depth < ml - 1
  · rw [dif_pos h]
    dsimp only
    rw [allInvisible, allInvisibleList, allInvisibleList, allInvisibleList,
      allInvisibleList, allInvisibleList]
    rw [buildTree_allInvisible, buildTree_allInvisible, buildTree_allInvisible,
      buildTree_allInvisible]
    rfl
  · rw [dif_neg h]
    rfl
termination_by (ml - 1 - depth).toNat
decreasing_by all_goals omega

/-- Collection at a visible node: push it, do not descend. -/
theorem collect_mk_visible (d : NodeData) (cs : List TerrainNode)
    (h : d.isVisible = true) :
    collectVisibleNodes (.mk d cs) = [.mk d cs] := by
  rw [collectVisibleNodes, h]
  simp

/-- Collection at an invisible internal node: descend into the children. -/
theorem collect_mk_invisible_nonleaf (d : NodeData) (cs : List TerrainNode)
    (hv : d.isVisible = false) (hl : d.isLeaf = false) :
    collectVisibleNodes (.mk d cs) = collectList cs := by
  rw [collectVisibleNodes, hv, hl]
  simp

mutual
/-- On a tree whose flags are all clear, `UpdateNode` increments both
counters together by the number of nodes it activates, and the nodes later
collected carry exactly the render slots `k, k+1, ...` in collection
order. -/
theorem updateNode_slots (L : List ℚ) (M : ℤ) (cam : Float3) (fr : Frustum) :
    ∀ (t : TerrainNode) (v k : ℕ), allInvisible t = true →
      ∃ n, (updateNode L M cam fr t (v, k)).2 = (v + n, k + n) ∧
        (collectVisibleNodes (updateNode L M cam fr t (v, k)).1).map
          (fun m => m.data.objectCBIndex) = List.range' k n
  | .mk d cs, v, k, h => by
    rw [allInvisible, Bool.and_eq_true, Bool.not_eq_true'] at h
    rw [updateNode]
    by_cases hfr : d.bounds.intersects fr
    · rw [if_pos hfr]
      dsimp only
      by_cases hsub :
          (!d.isLeaf && shouldSubdivide { d with isVisible := true, lodLevel := calculateLOD L M d cam } cam) = true
      · rw [if_pos hsub]
        obtain ⟨n, hst, hmap⟩ := updateList_slots L M cam fr cs v k h.2
        refine ⟨n, hst, ?_⟩
        rw [Bool.and_eq_true, Bool.not_eq_true'] at hsub
        rw [collect_mk_invisible_nonleaf]
        · exact hmap
        · rfl
        · exact hsub.1
      · rw [if_neg hsub]
        refine ⟨1, rfl, ?_⟩
        rw [collect_mk_visible]
        · rfl
        · rfl
    · rw [if_neg hfr]
      refine ⟨0, by simp, ?_⟩
      rw [collect_of_allInvisible]
      · rfl
      · rw [allInvisible]
        simp only [Bool.and_eq_true, Bool.not_eq_true']
        exact ⟨trivial, h.2⟩
theorem updateList_slots (L : List ℚ) (M : ℤ) (cam : Float3) (fr : Frustum) :
    ∀ (cs : List TerrainNode) (v k : ℕ), allInvisibleList cs = true →
      ∃ n, (updateList L M cam fr cs (v, k)).2 = (v + n, k + n) ∧
        (collectList (updateList L M cam fr cs (v, k)).1).map
          (fun m => m.data.objectCBIndex) = List.range' k n
  | [], v, k, _ => ⟨0, rfl, rfl⟩
  | c :: rest, v, k, h => by
    rw [allInvisibleList, Bool.and_eq_true] at h
    obtain ⟨n1, hst1, hmap1⟩ := updateNode_slots L M cam fr c v k h.1
    obtain ⟨n2, hst2, hmap2⟩ := updateList_slots L M cam fr rest (v + n1) (k + n1) h.2
    rw [updateList]
    dsimp only
    rw [hst1]
    refine ⟨n1 + n2, ?_, ?_⟩
    · rw [hst2]
      simp [Nat.add_assoc]
    · rw [collectList, List.map_append, hmap1, hmap2]
      rw [Nat.add_comm n1 n2]
      exact List.range'_append_1 k n1 n2
end

/-!
## C4: render-slot contiguity
-/

/-- C4 (amended): for the first `Update` after `Initialize` (any
configuration, camera, frustum), the `ObjectCBIndex` values of the nodes
returned by `GetVisibleNodes()` are exactly `0..N-1` in the order of the
returned sequence, where `N = GetVisibleNodeCount()`, and the number of
returned nodes equals `N`. -/
theorem render_slots_contiguous (ts ms : ℚ) (ml : ℤ) (cameraPos : Float3)
    (fr : Frustum) :
    (((QuadTree.new.initializeQT ts ms ml).update cameraPos fr).getVisibleNodes).map
        (fun m => m.data.objectCBIndex)
      = List.range (((QuadTree.new.initializeQT ts ms ml).update cameraPos fr).visibleNodeCount) ∧
    (((QuadTree.new.initializeQT ts ms ml).update cameraPos fr).getVisibleNodes).length
      = ((QuadTree.new.initializeQT ts ms ml).update cameraPos fr).visibleNodeCount := by
  obtain ⟨n, hst, hmap⟩ :=
    updateNode_slots (defaultLODDistances ms ml) ml cameraPos fr
      (buildTree ms ml 0 0 ts 0) 0 0 (buildTree_allInvisible ms ml 0 0 ts 0)
  have hq : (QuadTree.new.initializeQT ts ms ml).update cameraPos fr =
      { QuadTree.new with
        terrainSize := ts
        minNodeSize := ms
        maxLODLevels := ml
        lodDistances := defaultLODDistances ms ml
        root := some (updateNode (defaultLODDistances ms ml) ml cameraPos fr
          (buildTree ms ml 0 0 ts 0) (0, 0)).1
        visibleNodeCount := (updateNode (defaultLODDistances ms ml) ml cameraPos fr
          (buildTree ms ml 0 0 ts 0) (0, 0)).2.1
        totalNodeCount := nodeCount (buildTree ms ml 0 0 ts 0)
        nextObjectCBIndex := (updateNode (defaultLODDistances ms ml) ml cameraPos fr
          (buildTree ms ml 0 0 ts 0) (0, 0)).2.2 } := rfl
  rw [hq]
  dsimp only [QuadTree.getVisibleNodes, QuadTree.visibleNodeCount]
  rw [hst]
  dsimp only
  rw [hmap]
  constructor
  · rw [Nat.zero_add, List.range_eq_range']
  · have hlen := congrArg List.length hmap
    rw [List.length_map, List.length_range'] at hlen
    omega

/-- The two-frame scenario exposing stale visibility flags: a first update
subdivides the root and activates its four leaf children; a second update
culls the root, leaving the children's flags from the previous frame in
place. -/
def exQtStale : QuadTree :=
  ((QuadTree.new.initializeQT 2 1 2).update ⟨0, 0, 0⟩ acceptAll).update
    ⟨0, 0, 0⟩ rejectAll

set_option maxRecDepth 40000 in
/-- C4 (counterexample): after the two-update sequence of `exQtStale`,
`GetVisibleNodes()` returns four stale nodes while `GetVisibleNodeCount()`
is 0, so the slot values cannot be `0..N-1` with N the count. -/
theorem render_slots_stale_cex :
    (exQtStale.getVisibleNodes).length = 4 ∧ exQtStale.visibleNodeCount = 0 := by
  unfold exQtStale
  rw [initializeQT_eval]
  with_unfolding_all decide

/-!
## C1: frustum-culling soundness machinery
-/

/-- `s` is `t` itself or a node of one of `t`'s child subtrees — the
positions a `TerrainNode*` can point to inside the tree owned by `t`. -/
inductive IsSubtree : TerrainNode → TerrainNode → Prop where
  | refl (t : TerrainNode) : IsSubtree t t
  | child {s c : TerrainNode} {d : NodeData} {cs : List TerrainNode} :
      c ∈ cs → IsSubtree s c → IsSubtree s (.mk d cs)

/-- The box lies entirely on the negative side of the plane: every point of
the box has strictly negative signed plane distance. -/
def entirelyOutside (bb : AABB) (p : Float4) : Prop :=
  ∀ q : Float3,
    |q.x - bb.center.x| ≤ bb.extents.x →
    |q.y - bb.center.y| ≤ bb.extents.y →
    |q.z - bb.center.z| ≤ bb.extents.z →
    p.x * q.x + p.y * q.y + p.z * q.z + p.w < 0

/-- For a well-formed box (non-negative extents), a box entirely outside a
plane fails that plane's test. -/
theorem planePass_of_entirelyOutside (bb : AABB) (p : Float4)
    (hx : 0 ≤ bb.extents.x) (hy : 0 ≤ bb.extents.y) (hz : 0 ≤ bb.extents.z)
    (h : entirelyOutside bb p) : planePass bb p = false := by
  have hq := h (positiveVertex bb p) ?_ ?_ ?_
  · unfold planePass
    simp only [Bool.not_eq_false', decide_eq_true_iff]
    exact hq
  · unfold positiveVertex
    dsimp only
    rw [abs_le]
    split_ifs <;> constructor <;> linarith
  · unfold positiveVertex
    dsimp only
    rw [abs_le]
    split_ifs <;> constructor <;> linarith
  · unfold positiveVertex
    dsimp only
    rw [abs_le]
    split_ifs <;> constructor <;> linarith

/-- A box (with non-negative extents) entirely outside one of the six
planes fails the frustum test. -/
theorem intersects_false_of_entirelyOutside (bb : AABB) (fr : Frustum)
    (hx : 0 ≤ bb.extents.x) (hy : 0 ≤ bb.extents.y) (hz : 0 ≤ bb.extents.z)
    (h : ∃ i : Fin 6, entirelyOutside bb (fr i)) : bb.intersects fr = false := by
  obtain ⟨i, hi⟩ := h
  have hp := planePass_of_entirelyOutside bb (fr i) hx hy hz hi
  unfold AABB.intersects
  rw [List.all_eq_false]
  exact ⟨i, List.mem_finRange i, by rw [hp]; simp⟩

/-- Members of an all-invisible list are all-invisible. -/
theorem allInvisibleList_mem :
    ∀ {cs : List TerrainNode} {c : TerrainNode},
      allInvisibleList cs = true → c ∈ cs → allInvisible c = true
  | c' :: rest, c, h, hm => by
    rw [allInvisibleList, Bool.and_eq_true] at h
    rcases List.mem_cons.mp hm with rfl | hm'
    · exact h.1
    · exact allInvisibleList_mem h.2 hm'

/-- Subtrees of an all-invisible tree are all-invisible. -/
theorem subtree_of_allInvisible {s t : TerrainNode} (hs : IsSubtree s t)
    (ht : allInvisible t = true) : allInvisible s = true := by
  induction hs with
  | refl => exact ht
  | child hc _ ih =>
    rw [allInvisible, Bool.and_eq_true] at ht
    exact ih (allInvisibleList_mem ht.2 hc)

/-- An all-invisible node's own flag is clear. -/
theorem allInvisible_self {t : TerrainNode} (h : allInvisible t = true) :
    t.data.isVisible = false := by
  cases t with
  | mk d cs =>
    rw [allInvisible, Bool.and_eq_true, Bool.not_eq_true'] at h
    exact h.1

mutual
/-- Every node pushed by `CollectVisibleNodes` has its visibility flag set. -/
theorem mem_collect_visible :
    ∀ (t n : TerrainNode), n ∈ collectVisibleNodes t → n.data.isVisible = true
  | .mk d cs, n, hmem => by
    rw [collectVisibleNodes] at hmem
    by_cases hv : d.isVisible
    · rw [if_pos hv] at hmem
      rcases List.mem_singleton.mp hmem with rfl
      exact hv
    · rw [if_neg hv] at hmem
      by_cases hl : (!d.isLeaf) = true
      · rw [if_pos hl] at hmem
        exact mem_collectList_visible cs n hmem
      · rw [if_neg hl] at hmem
        exact absurd hmem (List.not_mem_nil n)
theorem mem_collectList_visible :
    ∀ (cs : List TerrainNode) (n : TerrainNode),
      n ∈ collectList cs → n.data.isVisible = true
  | c :: rest, n, hmem => by
    rw [collectList] at hmem
    rcases List.mem_append.mp hmem with hm | hm
    · exact mem_collect_visible c n hm
    · exact mem_collectList_visible rest n hm
end

mutual
/-- Core culling lemma: after updating an all-invisible tree, any subtree
position whose box fails the frustum test is an entirely invisible
subtree (its own flag and all its descendants' flags are clear). -/
theorem update_cull_allInvisible (L : List ℚ) (M : ℤ) (cam : Float3) (fr : Frustum) :
    ∀ (t : TerrainNode) (st : ℕ × ℕ) (s : TerrainNode),
      allInvisible t = true →
      IsSubtree s (updateNode L M cam fr t st).1 →
      s.data.bounds.intersects fr = false →
      allInvisible s = true
  | .mk d cs, st, s, h, hs, hout => by
    rw [allInvisible, Bool.and_eq_true, Bool.not_eq_true'] at h
    rw [updateNode] at hs
    by_cases hfr : d.bounds.intersects fr
    · rw [if_pos hfr] at hs
      dsimp only at hs
      by_cases hsub :
          (!d.isLeaf && shouldSubdivide { d with isVisible := true, lodLevel := calculateLOD L M d cam } cam) = true
      · rw [if_pos hsub] at hs
        cases hs with
        | refl =>
          dsimp only [TerrainNode.data] at hout
          rw [hfr] at hout
          exact absurd hout (by simp)
        | child hc hsc =>
          exact updateList_cull_allInvisible L M cam fr cs st s _ h.2 hc hsc hout
      · rw [if_neg hsub] at hs
        cases hs with
        | refl =>
          dsimp only [TerrainNode.data] at hout
          rw [hfr] at hout
          exact absurd hout (by simp)
        | child hc hsc =>
          exact subtree_of_allInvisible hsc (allInvisibleList_mem h.2 hc)
    · rw [if_neg hfr] at hs
      cases hs with
      | refl =>
        rw [allInvisible]
        simp only [Bool.and_eq_true, Bool.not_eq_true']
        exact ⟨trivial, h.2⟩
      | child hc hsc =>
        exact subtree_of_allInvisible hsc (allInvisibleList_mem h.2 hc)
theorem updateList_cull_allInvisible (L : List ℚ) (M : ℤ) (cam : Float3) (fr : Frustum) :
    ∀ (cs : List TerrainNode) (st : ℕ × ℕ) (s c' : TerrainNode),
      allInvisibleList cs = true →
      c' ∈ (updateList L M cam fr cs st).1 →
      IsSubtree s c' →
      s.data.bounds.intersects fr = false →
      allInvisible s = true
  | [], st, s, c', h, hc, hsc, hout => by
    rw [updateList] at hc
    exact absurd hc (List.not_mem_nil c')
  | c :: rest, st, s, c', h, hc, hsc, hout => by
    rw [allInvisibleList, Bool.and_eq_true] at h
    rw [updateList] at hc
    dsimp only at hc
    rcases List.mem_cons.mp hc with rfl | hc'
    · exact update_cull_allInvisible L M cam fr c st s h.1 hsc hout
    · exact updateList_cull_allInvisible L M cam fr rest
        (updateNode L M cam fr c st).2 s c' h.2 hc' hsc hout
end

/-- A member of a node's child list is a subtree of the node. -/
theorem isSubtree_of_mem_children {n t : TerrainNode} (h : n ∈ t.children) :
    IsSubtree n t := by
  cases t with
  | mk d cs => exact IsSubtree.child h (IsSubtree.refl n)

/-- C1 (amended): after `Initialize` followed by a single `Update`, any node
of the tree whose (well-formed) bounding box lies entirely on the negative
side of at least one of the six frustum planes does not appear in
`GetVisibleNodes()`, and neither does any node of its subtree. -/
theorem frustum_cull_sound_first_update (ts ms : ℚ) (ml : ℤ) (cameraPos : Float3)
    (fr : Frustum) (t' s n : TerrainNode)
    (hroot : ((QuadTree.new.initializeQT ts ms ml).update cameraPos fr).root = some t')
    (hs : IsSubtree s t')
    (hx : 0 ≤ s.data.bounds.extents.x) (hy : 0 ≤ s.data.bounds.extents.y)
    (hz : 0 ≤ s.data.bounds.extents.z)
    (hout : ∃ i : Fin 6, entirelyOutside s.data.bounds (fr i))
    (hn : IsSubtree n s) :
    n ∉ ((QuadTree.new.initializeQT ts ms ml).update cameraPos fr).getVisibleNodes := by
  have hform : ((QuadTree.new.initializeQT ts ms ml).update cameraPos fr).root
      = some ((updateNode (defaultLODDistances ms ml) ml cameraPos fr
          (buildTree ms ml 0 0 ts 0) (0, 0)).1) := rfl
  rw [hform] at hroot
  have hroot' := Option.some.inj hroot
  have hint : s.data.bounds.intersects fr = false :=
    intersects_false_of_entirelyOutside _ fr hx hy hz hout
  have hsInv : allInvisible s = true := by
    rw [← hroot'] at hs
    exact update_cull_allInvisible _ _ _ _ _ _ _
      (buildTree_allInvisible ms ml 0 0 ts 0) hs hint
  have hnInv : n.data.isVisible = false :=
    allInvisible_self (subtree_of_allInvisible hn hsInv)
  intro hmem
  have hgv : ((QuadTree.new.initializeQT ts ms ml).update cameraPos fr).getVisibleNodes
      = collectVisibleNodes ((updateNode (defaultLODDistances ms ml) ml cameraPos fr
          (buildTree ms ml 0 0 ts 0) (0, 0)).1) := rfl
  rw [hgv] at hmem
  have := mem_collect_visible _ n hmem
  rw [hnInv] at this
  exact absurd this (by simp)

/-- Root of the `frustum_cull_sound_first_update` witness scenario, in the
evaluable `buildTreeN` form: `Initialize(2, 1, 2)` then one `Update` with
the all-rejecting frustum. -/
def exRootC1 : TerrainNode :=
  (updateNode (defaultLODDistances 1 2) 2 ⟨0, 0, 0⟩ rejectAll
    (buildTreeN 1 2 1 0 0 2 0) (0, 0)).1

/-- Witness for `frustum_cull_sound_first_update`: the culled root itself
is absent from the collected sequence. -/
theorem frustum_cull_sound_first_update_witness :
    exRootC1 ∉ ((QuadTree.new.initializeQT 2 1 2).update ⟨0, 0, 0⟩ rejectAll).getVisibleNodes :=
  frustum_cull_sound_first_update 2 1 2 ⟨0, 0, 0⟩ rejectAll exRootC1 exRootC1 exRootC1
    (by
      rw [show ((QuadTree.new.initializeQT 2 1 2).update ⟨0, 0, 0⟩ rejectAll).root
          = some ((updateNode (defaultLODDistances 1 2) 2 ⟨0, 0, 0⟩ rejectAll
              (buildTree 1 2 0 0 2 0) (0, 0)).1) from rfl,
        ← buildTreeN_eq 1 2 1 0 0 2 0 rfl]
      rfl)
    (IsSubtree.refl _)
    (by with_unfolding_all decide)
    (by with_unfolding_all decide)
    (by with_unfolding_all decide)
    ⟨0, by intro q h1 h2 h3; simp [rejectAll]⟩
    (IsSubtree.refl _)

/-- Stale root after the two-update sequence, in evaluable form. -/
def exStaleRootN : TerrainNode :=
  (updateNode (defaultLODDistances 1 2) 2 ⟨0, 0, 0⟩ rejectAll
    ((updateNode (defaultLODDistances 1 2) 2 ⟨0, 0, 0⟩ acceptAll
      (buildTreeN 1 2 1 0 0 2 0) (0, 0)).1) (0, 0)).1

/-- First (NW) child of the stale root: activated in frame one, its
visibility flag survives the culled second frame. -/
def exStaleChild : TerrainNode := exStaleRootN.children.getD 0 default

set_option maxRecDepth 40000 in
/-- C1 (counterexample): in the two-update sequence of `exQtStale`, the
root's box is entirely on the negative side of the first frustum plane of
the second update, yet a strict descendant of the root (its NW child, with
its stale visibility flag from the first frame) appears in
`GetVisibleNodes()`. -/
theorem frustum_cull_stale_cex :
    exQtStale.root = some exStaleRootN ∧
    entirelyOutside exStaleRootN.data.bounds (rejectAll 0) ∧
    IsSubtree exStaleChild exStaleRootN ∧
    exStaleChild ≠ exStaleRootN ∧
    exStaleChild ∈ exQtStale.getVisibleNodes := by
  have hroot : exQtStale.root = some exStaleRootN := by
    rw [show exQtStale.root
        = some ((updateNode (defaultLODDistances 1 2) 2 ⟨0, 0, 0⟩ rejectAll
            ((updateNode (defaultLODDistances 1 2) 2 ⟨0, 0, 0⟩ acceptAll
              (buildTree 1 2 0 0 2 0) (0, 0)).1) (0, 0)).1) from rfl,
      ← buildTreeN_eq 1 2 1 0 0 2 0 rfl]
    rfl
  refine ⟨hroot, ?_, ?_, ?_, ?_⟩
  · intro q h1 h2 h3
    simp [rejectAll]
  · refine isSubtree_of_mem_children (List.mem_of_mem_head? ?_)
    rw [Option.mem_def]
    with_unfolding_all rfl
  · intro hEq
    have h1 : exStaleChild.data.size = 1 := by with_unfolding_all decide
    have h2 : exStaleRootN.data.size = 2 := by with_unfolding_all decide
    rw [hEq, h2] at h1
    norm_num at h1
  · have hgv : exQtStale.getVisibleNodes = collectVisibleNodes exStaleRootN := by
      rw [QuadTree.getVisibleNodes, hroot]
    rw [hgv]
    refine List.mem_of_mem_head? ?_
    rw [Option.mem_def]
    with_unfolding_all rfl

/-!
## C9: shape of the built tree
-/

/-- `BuildTree` stamps its position/size arguments into the node, in both
the subdivide and the leaf branch. -/
theorem buildTree_data (ms : ℚ) (ml : ℤ) (x z size : ℚ) (depth : ℤ) :
    (buildTree ms ml x z size depth).data.x = x ∧
    (buildTree ms ml x z size depth).data.z = z ∧
    (buildTree ms ml x z size depth).data.size = size := by
  rw [buildTree]
  by_cases h : size > ms ∧ depth < ml - 1
  · rw [dif_pos h]
    exact ⟨rfl, rfl, rfl⟩
  · rw [dif_neg h]
    exact ⟨rfl, rfl, rfl⟩

/-- C9 (confirmed): in any tree built by `Initialize`/`BuildTree`, a node
has no children exactly when its leaf flag is set, and every non-leaf node
has exactly four children of half its size centered at the four quadrant
offsets `(x ∓ S/4, z ± S/4)` in NW, NE, SW, SE order, so the children tile
the parent's footprint. -/
theorem built_tree_structure (ms : ℚ) (ml : ℤ) (x z size : ℚ) (depth : ℤ) :
    ∀ s : TerrainNode, IsSubtree s (buildTree ms ml x z size depth) →
      (s.children = [] ↔ s.data.isLeaf = true) ∧
      (s.data.isLeaf = false →
        ∃ c0 c1 c2 c3 : TerrainNode, s.children = [c0, c1, c2, c3] ∧
          c0.data.size = s.data.size * (1/2) ∧
          c0.data.x = s.data.x - s.data.size * (1/4) ∧
          c0.data.z = s.data.z + s.data.size * (1/4) ∧
          c1.data.size = s.data.size * (1/2) ∧
          c1.data.x = s.data.x + s.data.size * (1/4) ∧
          c1.data.z = s.data.z + s.data.size * (1/4) ∧
          c2.data.size = s.data.size * (1/2) ∧
          c2.data.x = s.data.x - s.data.size * (1/4) ∧
          c2.data.z = s.data.z - s.data.size * (1/4) ∧
          c3.data.size = s.data.size * (1/2) ∧
          c3.data.x = s.data.x + s.data.size * (1/4) ∧
          c3.data.z = s.data.z - s.data.size * (1/4)) := by
  intro s hs
  rw [buildTree] at hs
  by_cases h : size > ms ∧ depth < ml - 1
  · rw [dif_pos h] at hs
    dsimp only at hs
    cases hs with
    | refl =>
      constructor
      · simp [TerrainNode.children, TerrainNode.data]
      · intro _
        obtain ⟨h0x, h0z, h0s⟩ :=
          buildTree_data ms ml (x - size * (1/4)) (z + size * (1/4)) (size * (1/2)) (depth + 1)
        obtain ⟨h1x, h1z, h1s⟩ :=
          buildTree_data ms ml (x + size * (1/4)) (z + size * (1/4)) (size * (1/2)) (depth + 1)
        obtain ⟨h2x, h2z, h2s⟩ :=
          buildTree_data ms ml (x - size * (1/4)) (z - size * (1/4)) (size * (1/2)) (depth + 1)
        obtain ⟨h3x, h3z, h3s⟩ :=
          buildTree_data ms ml (x + size * (1/4)) (z - size * (1/4)) (size * (1/2)) (depth + 1)
        exact ⟨_, _, _, _, rfl, h0s, h0x, h0z, h1s, h1x, h1z, h2s, h2x, h2z, h3s, h3x, h3z⟩
    | child hc hsc =>
      simp only [List.mem_cons, List.not_mem_nil, or_false] at hc
      rcases hc with rfl | rfl | rfl | rfl
      · exact built_tree_structure ms ml (x - size * (1/4)) (z + size * (1/4))
          (size * (1/2)) (depth + 1) s hsc
      · exact built_tree_structure ms ml (x + size * (1/4)) (z + size * (1/4))
          (size * (1/2)) (depth + 1) s hsc
      · exact built_tree_structure ms ml (x - size * (1/4)) (z - size * (1/4))
          (size * (1/2)) (depth + 1) s hsc
      · exact built_tree_structure ms ml (x + size * (1/4)) (z - size * (1/4))
          (size * (1/2)) (depth + 1) s hsc
  · rw [dif_neg h] at hs
    cases hs with
    | refl =>
      constructor
      · simp [TerrainNode.children, TerrainNode.data]
      · intro hfalse
        simp [TerrainNode.data] at hfalse
    | child hc _ =>
      exact absurd hc (List.not_mem_nil _)
termination_by (ml - 1 - depth).toNat
decreasing_by all_goals omega

/-- Witness for `built_tree_structure`: the root of the `Initialize(2, 1, 2)`
tree (a non-leaf of size 2 at the origin). -/
theorem built_tree_structure_witness :
    ((buildTree 1 2 0 0 2 0).children = [] ↔ (buildTree 1 2 0 0 2 0).data.isLeaf = true) ∧
    ((buildTree 1 2 0 0 2 0).data.isLeaf = false →
      ∃ c0 c1 c2 c3 : TerrainNode,
        (buildTree 1 2 0 0 2 0).children = [c0, c1, c2, c3] ∧
        c0.data.size = (buildTree 1 2 0 0 2 0).data.size * (1/2) ∧
        c0.data.x = (buildTree 1 2 0 0 2 0).data.x - (buildTree 1 2 0 0 2 0).data.size * (1/4) ∧
        c0.data.z = (buildTree 1 2 0 0 2 0).data.z + (buildTree 1 2 0 0 2 0).data.size * (1/4) ∧
        c1.data.size = (buildTree 1 2 0 0 2 0).data.size * (1/2) ∧
        c1.data.x = (buildTree 1 2 0 0 2 0).data.x + (buildTree 1 2 0 0 2 0).data.size * (1/4) ∧
        c1.data.z = (buildTree 1 2 0 0 2 0).data.z + (buildTree 1 2 0 0 2 0).data.size * (1/4) ∧
        c2.data.size = (buildTree 1 2 0 0 2 0).data.size * (1/2) ∧
        c2.data.x = (buildTree 1 2 0 0 2 0).data.x - (buildTree 1 2 0 0 2 0).data.size * (1/4) ∧
        c2.data.z = (buildTree 1 2 0 0 2 0).data.z - (buildTree 1 2 0 0 2 0).data.size * (1/4) ∧
        c3.data.size = (buildTree 1 2 0 0 2 0).data.size * (1/2) ∧
        c3.data.x = (buildTree 1 2 0 0 2 0).data.x + (buildTree 1 2 0 0 2 0).data.size * (1/4) ∧
        c3.data.z = (buildTree 1 2 0 0 2 0).data.z - (buildTree 1 2 0 0 2 0).data.size * (1/4)) :=
  built_tree_structure 1 2 0 0 2 0 (buildTree 1 2 0 0 2 0) (IsSubtree.refl _)

/-!
## C6: the collected set has no ancestor-descendant pair

`CollectVisibleNodes` returns `TerrainNode*` pointers; a pointer into the
tree is identified by its child-index path from the root.  `collectPaths`
is the same recursion as `collectVisibleNodes` but returns those paths, and
`subtreeAt` dereferences a path; `collect_link` ties the two together.
-/

/-- Dereference a child-index path. -/
def subtreeAt : TerrainNode → List ℕ → TerrainNode
  | t, [] => t
  | .mk _ cs, j :: p => subtreeAt (cs.getD j default) p

mutual
/-- The recursion of `CollectVisibleNodes`, returning the child-index path
of each pushed node instead of the node itself. -/
def collectPaths : TerrainNode → List (List ℕ)
  | .mk d cs =>
    if d.isVisible then [[]]
    else if !d.isLeaf then collectPathsList 0 cs
    else []
def collectPathsList : ℕ → List TerrainNode → List (List ℕ)
  | _, [] => []
  | i, c :: rest =>
    (collectPaths c).map (fun p => i :: p) ++ collectPathsList (i + 1) rest
end

mutual
/-- `CollectVisibleNodes` returns exactly the nodes sitting at the paths
`collectPaths` produces, in the same order. -/
theorem collect_link :
    ∀ t : TerrainNode, collectVisibleNodes t = (collectPaths t).map (subtreeAt t)
  | .mk d cs => by
    rw [collectVisibleNodes, collectPaths]
    by_cases hv : d.isVisible
    · rw [if_pos hv, if_pos hv]
      rfl
    · rw [if_neg hv, if_neg hv]
      by_cases hl : (!d.isLeaf) = true
      · rw [if_pos hl, if_pos hl]
        have := collectList_link cs d []
        simpa using this
      · rw [if_neg hl, if_neg hl]
        rfl
theorem collectList_link :
    ∀ (cur : List TerrainNode) (d : NodeData) (pre : List TerrainNode),
      collectList cur =
        (collectPathsList pre.length cur).map (subtreeAt (.mk d (pre ++ cur)))
  | [], d, pre => rfl
  | c :: rest, d, pre => by
    rw [collectList, collectPathsList, List.map_append, List.map_map]
    have hget : (pre ++ c :: rest).getD pre.length default = c := by
      rw [List.getD_eq_getElem?_getD, List.getElem?_append_right (Nat.le_refl _)]
      simp
    have h1 : ((collectPaths c).map
          (subtreeAt (.mk d (pre ++ c :: rest)) ∘ fun p => pre.length :: p))
        = (collectPaths c).map (subtreeAt c) := by
      refine List.map_congr_left ?_
      intro p _
      show subtreeAt (.mk d (pre ++ c :: rest)) (pre.length :: p) = subtreeAt c p
      rw [subtreeAt, hget]
    rw [h1, ← collect_link c]
    have h2 : collectList rest =
        (collectPathsList (pre.length + 1) rest).map
          (subtreeAt (.mk d (pre ++ c :: rest))) := by
      have := collectList_link rest d (pre ++ [c])
      rw [List.length_append, List.append_assoc] at this
      simpa using this
    rw [h2]
end

/-- Every path produced with starting index `i` begins with an index `≥ i`. -/
theorem collectPathsList_shape :
    ∀ (cs : List TerrainNode) (i : ℕ) (q : List ℕ),
      q ∈ collectPathsList i cs → ∃ j p, q = j :: p ∧ i ≤ j
  | c :: rest, i, q, hq => by
    rw [collectPathsList] at hq
    rcases List.mem_append.mp hq with hm | hm
    · obtain ⟨p, _, rfl⟩ := List.mem_map.mp hm
      exact ⟨i, p, rfl, Nat.le_refl i⟩
    · obtain ⟨j, p, rfl, hj⟩ := collectPathsList_shape rest (i + 1) q hm
      exact ⟨j, p, rfl, by omega⟩

mutual
/-- Distinct collected paths are never prefixes of one another: a pushed
node's subtree is never searched again. -/
theorem collectPaths_prefix_free :
    ∀ (t : TerrainNode) (p q : List ℕ),
      p ∈ collectPaths t → q ∈ collectPaths t → p ≠ q → ¬ p <+: q
  | .mk d cs, p, q, hp, hq, hne => by
    rw [collectPaths] at hp hq
    by_cases hv : d.isVisible
    · rw [if_pos hv] at hp hq
      rcases List.mem_singleton.mp hp with rfl
      rcases List.mem_singleton.mp hq with rfl
      exact absurd rfl hne
    · rw [if_neg hv] at hp hq
      by_cases hl : (!d.isLeaf) = true
      · rw [if_pos hl] at hp hq
        exact collectPathsList_prefix_free cs 0 p q hp hq hne
      · rw [if_neg hl] at hp
        exact absurd hp (List.not_mem_nil p)
theorem collectPathsList_prefix_free :
    ∀ (cs : List TerrainNode) (i : ℕ) (p q : List ℕ),
      p ∈ collectPathsList i cs → q ∈ collectPathsList i cs → p ≠ q → ¬ p <+: q
  | c :: rest, i, p, q, hp, hq, hne => by
    rw [collectPathsList] at hp hq
    rcases List.mem_append.mp hp with hpm | hpm <;>
      rcases List.mem_append.mp hq with hqm | hqm
    · obtain ⟨p', hp', rfl⟩ := List.mem_map.mp hpm
      obtain ⟨q', hq', rfl⟩ := List.mem_map.mp hqm
      intro hpre
      rcases (List.cons_prefix_cons.mp hpre) with ⟨-, htail⟩
      exact collectPaths_prefix_free c p' q' hp' hq'
        (fun hEq => hne (by rw [hEq])) htail
    · obtain ⟨p', hp', rfl⟩ := List.mem_map.mp hpm
      obtain ⟨j, q', rfl, hj⟩ := collectPathsList_shape rest (i + 1) q hqm
      intro hpre
      rcases (List.cons_prefix_cons.mp hpre) with ⟨hhead, -⟩
      omega
    · obtain ⟨j, p', rfl, hj⟩ := collectPathsList_shape rest (i + 1) p hpm
      obtain ⟨q', hq', rfl⟩ := List.mem_map.mp hqm
      intro hpre
      rcases (List.cons_prefix_cons.mp hpre) with ⟨hhead, -⟩
      omega
    · exact collectPathsList_prefix_free rest (i + 1) p q hpm hqm hne
end

/-- C6 (confirmed): the sequence returned by `GetVisibleNodes()` consists
of the nodes at the paths `collectPaths` yields (first conjunct), and no
such path is a strict prefix of another (second conjunct): the returned
set never contains a node together with one of its descendants, after any
update history whatsoever. -/
theorem visible_set_no_ancestor_pairs :
    (∀ t : TerrainNode, collectVisibleNodes t = (collectPaths t).map (subtreeAt t)) ∧
    (∀ (t : TerrainNode) (p q : List ℕ),
      p ∈ collectPaths t → q ∈ collectPaths t → p ≠ q → ¬ p <+: q) :=
  ⟨collect_link, collectPaths_prefix_free⟩

/-- Witness for `visible_set_no_ancestor_pairs` on the stale-children tree,
whose collected paths are `[0], [1], [2], [3]`. -/
theorem visible_set_no_ancestor_pairs_witness :
    collectVisibleNodes exStaleRootN
        = (collectPaths exStaleRootN).map (subtreeAt exStaleRootN) ∧
    ¬ [0] <+: [1] :=
  ⟨visible_set_no_ancestor_pairs.1 exStaleRootN,
   visible_set_no_ancestor_pairs.2 exStaleRootN [0] [1]
     (by with_unfolding_all decide) (by with_unfolding_all decide)
     (by decide)⟩
